import Mathlib

/-!
Verification of the `jsonrpc` Go package (JSON-RPC 2.0 over HTTP).

The development shallowly embeds the wire-message codec (`message.go`),
the server dispatcher (`ServeHTTP` / `callMethod`), the handler
registration check (`HandleFunc` / `inspectHandler`), and the client call
engine (`client.go`).  JSON documents are modelled by an inductive `Json`
type; Go's `json.RawMessage` fields (which are `nil` when the JSON field
is absent) become `Option Json`; fallible Go calls return `Option` or
`Except` values.  Reflection-dependent pieces (parameter decoding,
result encoding, handler invocation) are parametrised by the concrete
handler's decoder/encoder functions, mirroring how `callMethod` consults
the registered `handlerType`.
-/

namespace JsonRpc

/-- A JSON document.  Numbers are modelled as integers: every id or
params payload exercised by this development is integral, and nothing in
the code under verification inspects the numeric representation. -/
inductive Json where
  | null : Json
  | bool (b : Bool) : Json
  | num (n : Int) : Json
  | str (s : String) : Json
  | arr (elems : List Json) : Json
  | obj (fields : List (String × Json)) : Json

/-- Go `Error` from `jsonrpc.go`: a JSON-RPC error object with `Code`,
`Message` and optional `Data`. -/
structure RpcError where
  code : Int
  message : String
  data : Option Json

/-- Go `ErrorParseError = Error{-32700, "Parse error", nil}`. -/
def errorParseError : RpcError := ⟨-32700, "Parse error", none⟩

/-- Go `ErrInvalidRequest = Error{-32600, "Invalid Request", nil}`. -/
def errInvalidRequest : RpcError := ⟨-32600, "Invalid Request", none⟩

/-- Go `ErrMethodNotFound = Error{-32601, "Method not found", nil}`. -/
def errMethodNotFound : RpcError := ⟨-32601, "Method not found", none⟩

/-- Go `ErrInvalidParams = Error{-32602, "Invalid params", nil}`. -/
def errInvalidParams : RpcError := ⟨-32602, "Invalid params", none⟩

/-- Go `ErrInternalError = Error{-32603, "Internal error", nil}`. -/
def errInternalError : RpcError := ⟨-32603, "Internal error", none⟩

/-- The `rawMessage` envelope from `message.go`: one struct shared by
requests and responses.  A field that is `nil` (absent in the JSON
document) is `none`; `method` is the empty string when absent, exactly as
a Go `string` field is left zero-valued.  The `jsonrpc` version tag is
decoded but never inspected by any code path modelled here, so it is not
recorded. -/
structure RawMessage where
  id : Option Json
  method : String
  params : Option Json
  result : Option Json
  error : Option RpcError

/-- The outcome of `json.NewDecoder(r).Decode(msg)` on an HTTP body:
`malformed` when `Decode` returns an error (in particular for every body
that is not syntactically valid JSON), `wellFormed` with the decoded
envelope otherwise. -/
inductive HttpBody where
  | malformed : HttpBody
  | wellFormed (msg : RawMessage) : HttpBody

/-- Go `Request` from `message.go`: `ID`, `Method`, `Params` plus the
derived `isNotification` flag, set iff the decoded `ID` is `nil`. -/
structure Request where
  id : Option Json
  method : String
  params : Option Json
  isNotification : Bool

/-- Go `Response` from `message.go`: `ID`, `Result`, `Error`. -/
structure Response where
  id : Option Json
  result : Option Json
  error : Option RpcError

/-- Go `errResponse(id, err)` from `message.go`: builds an error Response,
substituting JSON `null` for the id when no id could be determined. -/
def errResponse (id : Option Json) (e : RpcError) : Response :=
  { id := if id.isNone then some Json.null else id
    result := none
    error := some e }

/-- Result of `readRequest`: the Go function returns `(req, err)` where
`err` is `errInvalidEncodedJSON` (with no request) or
`errInvalidDecodedMessage` (with the partially validated request) or
`nil`. -/
inductive ReadRequestResult where
  | parseError : ReadRequestResult
  | invalidMessage (req : Request) : ReadRequestResult
  | ok (req : Request) : ReadRequestResult

/-- Go `readRequest` from `message.go`: decode the envelope, build the
request (marking it a notification iff the decoded id is `nil`), and
reject it when `method` is empty. -/
def readRequest : HttpBody → ReadRequestResult
  | .malformed => .parseError
  | .wellFormed msg =>
      let req : Request :=
        { id := msg.id
          method := msg.method
          params := msg.params
          isNotification := msg.id.isNone }
      if msg.method = "" then .invalidMessage req else .ok req

/-- The error value a handler returns (its second return value, when
non-nil).  `callMethod` distinguishes, by a type switch, the structured
`Error` value from any other value satisfying the `error` interface; the
latter is only observed through its `Error()` description string. -/
inductive HandlerError where
  | rpc (e : RpcError) : HandlerError
  | plain (msg : String) : HandlerError

/-- A registered `handlerType` from the server file, for a handler whose
Go parameter type is embedded as `P` and result type as `R`.
`f` models `htype.f.Call`: it receives `none` when the handler takes only
the context (`numArgs = 1`) and `some v` with the decoded parameter when
`numArgs = 2` (the context argument itself carries no data relevant
here).  `punmarshal` models `json.Unmarshal` into a freshly allocated
value of the parameter type, `rmarshal` models `json.Marshal` of the
result. -/
structure HandlerType (P R : Type) where
  numArgs : Nat
  f : Option P → R × Option HandlerError
  punmarshal : Json → Option P
  rmarshal : R → Option Json

/-- Outcome of `callMethod` as consumed by `ServeHTTP`: the two sentinel
errors, a structured `Error` (either returned by the handler directly or
wrapping a plain handler error), or a marshalled result. -/
inductive CallOutcome where
  | invalidParams : CallOutcome
  | invalidOutput : CallOutcome
  | rpcError (e : RpcError) : CallOutcome
  | success (result : Json) : CallOutcome

/-- The value of `reflect.DeepEqual(pzero, pvalue.Elem())` inside
`callMethod`.  `pzero` is the `reflect.Value` returned by `reflect.New`,
so it wraps a value of a pointer type `*T` (or `*E` when the parameter
type is itself a pointer `*E`), while `pvalue.Elem()` wraps a value of
type `T` (resp. `E`).  `reflect.DeepEqual` receives the two
`reflect.Value` structs themselves, not the values they wrap, and
compares them field by field; their `typ` fields point at the distinct
runtime types `*T` and `T` and their `ptr` fields are the addresses of
two distinct allocations, so the comparison yields `false` for every
parameter type. -/
def deepEqualZeroCheck : Bool := false

/-- The tail of `callMethod` after the handler has been invoked: inspect
the returned error by a type switch (`Error` forwarded as is, any other
error wrapped as `Error{Code: -32000, Message: err.Error()}`), then
marshal the first return value.  The `Bool` is instrumentation recording
that `htype.f.Call` happened; the Go code carries no such value. -/
def finishCall {P R : Type} (h : HandlerType P R) :
    R × Option HandlerError → CallOutcome × Bool
  | (_, some (.rpc e)) => (.rpcError e, true)
  | (_, some (.plain msg)) => (.rpcError ⟨-32000, msg, none⟩, true)
  | (r, none) =>
      match h.rmarshal r with
      | none => (.invalidOutput, true)
      | some j => (.success j, true)

/-- Go `callMethod` from the server file.  For a one-argument handler the
function is called with the context only.  Otherwise: a `nil` params
payload is `errServerInvalidParams`; so is a failing `json.Unmarshal`;
the subsequent `reflect.DeepEqual` zero-value test (see
`deepEqualZeroCheck`) never fires; then the handler is called with the
decoded parameter. -/
def callMethod {P R : Type} (req : Request) (h : HandlerType P R) :
    CallOutcome × Bool :=
  if h.numArgs = 1 then
    finishCall h (h.f none)
  else
    match req.params with
    | none => (.invalidParams, false)
    | some p =>
        match h.punmarshal p with
        | none => (.invalidParams, false)
        | some v =>
            if deepEqualZeroCheck then (.invalidParams, false)
            else finishCall h (h.f (some v))

/-- The method registry: `s.handler.Load` on the server's `sync.Map`. -/
def Registry (P R : Type) := String → Option (HandlerType P R)

/-- Go `ServeHTTP` from the server file, after the POST check, for a POST
request with the given body.  Every branch ends in `sendMessage`, which
writes the returned `Response` back; the produced `Response` is
therefore total — in particular the `isNotification` flag computed by
`readRequest` is never consulted.  The `Bool` propagates the
instrumentation of `callMethod`: whether the registered handler was
invoked. -/
def serveHTTP {P R : Type} (reg : Registry P R) (body : HttpBody) :
    Response × Bool :=
  match readRequest body with
  | .parseError => (errResponse none errorParseError, false)
  | .invalidMessage req => (errResponse req.id errInvalidRequest, false)
  | .ok req =>
      match reg req.method with
      | none => (errResponse req.id errMethodNotFound, false)
      | some htype =>
          match callMethod req htype with
          | (.invalidParams, inv) => (errResponse req.id errInvalidParams, inv)
          | (.invalidOutput, inv) => (errResponse req.id errInternalError, inv)
          | (.rpcError e, inv) => (errResponse req.id e, inv)
          | (.success result, inv) =>
              ({ id := req.id, result := some result, error := none }, inv)

/-- Go `json.Unmarshal` into a Go `int` target: a JSON number is stored, a
JSON `null` succeeds while leaving the target at its zero value, and any
other document is a type error. -/
def goUnmarshalInt : Json → Option Int
  | .null => some 0
  | .num n => some n
  | _ => none

/-- A concrete registered handler, `func(ctx context.Context, n int)
(int, error) { return n, nil }`: echoes its integer parameter. -/
def echoIntHandler : HandlerType Int Int :=
  { numArgs := 2
    f := fun p => ((p.getD 0, none))
    punmarshal := goUnmarshalInt
    rmarshal := fun n => some (.num n) }

/-- A registry holding only `echoIntHandler` under the method name
`echo`. -/
def echoRegistry : Registry Int Int :=
  fun m => if m = "echo" then some echoIntHandler else none

/-- Result of `readResponse` from `message.go`: parse failure, a decoded
envelope rejected because it carries a `method` (the Go function then
returns only the id), or a `Response`.  In the accepted case the Go code
re-marshals the raw `Result` capsule, which turns an absent result into
the literal JSON `null`. -/
inductive ReadResponseResult where
  | parseError : ReadResponseResult
  | invalidMessage (id : Option Json) : ReadResponseResult
  | ok (resp : Response) : ReadResponseResult

/-- Go `readResponse` from `message.go`. -/
def readResponse : HttpBody → ReadResponseResult
  | .malformed => .parseError
  | .wellFormed msg =>
      if msg.method = "" then
        .ok { id := msg.id, result := some (msg.result.getD .null),
              error := msg.error }
      else
        .invalidMessage msg.id

/-- The observable completion of `Client.call` (the goroutine spawned by
`Client.Call`), writing to the `done` channel.  `P` is the Lean type
embedding the caller's `reply` target type.  Cancellation of the
supplied context is a race handled in `Client.Call` itself and is not
part of this reply-path model. -/
inductive ClientOutcome (A : Type) where
  | transportFailure : ClientOutcome A
  | readFailure : ClientOutcome A
  | serverFailure (e : RpcError) : ClientOutcome A
  | unmarshalFailure (res : Response) : ClientOutcome A
  | ok (res : Response) (reply : A) : ClientOutcome A

/-- Go `Client.nextID`: `atomic.AddInt64(&c.next, 1)` rendered as a decimal
`json.RawMessage`, i.e. the JSON number `counter + 1`. -/
def nextID (counter : Int) : Json := .num (counter + 1)

/-- Go `Client.call` from `client.go` for a client whose atomic counter
currently holds `counter`.  The transport (`Client.send`, an HTTP POST
of the encoded request) is modelled as a function from the built request
to `none` (transport error) or the reply body.  `um` embeds
`json.Unmarshal` of the reply's result into the caller's `reply` value.
The decoded `Response` is taken as `readResponse` returns it; its id is
never compared with the id the call allocated.  Returns the new counter
value together with the call's outcome. -/
def clientCall {A : Type} (counter : Int) (transport : Request → Option HttpBody)
    (um : Json → Option A) (method : String) (params : Json) :
    Int × ClientOutcome A :=
  let req : Request :=
    { id := some (nextID counter), method := method,
      params := some params, isNotification := false }
  (counter + 1,
    match transport req with
    | none => .transportFailure
    | some body =>
        match readResponse body with
        | .parseError => .readFailure
        | .invalidMessage _ => .readFailure
        | .ok res =>
            match res.error with
            | some e => .serverFailure e
            | none =>
                match (res.result.getD .null) |> um with
                | none => .unmarshalFailure res
                | some v => .ok res v)

/-- The raw JSON object fields of an inbound request body, as seen by the
second-generation codec whose `rawMessage.ID` field has type
`interface` (empty interface): `idField` is `none` when the document has
no `id` member and `some j` when it has `"id": j` (where `j` may be the
JSON literal `null`). -/
structure RawBody2 where
  idField : Option Json
  method : String
  params : Option Json

/-- Decoding a JSON value into an empty-interface Go variable: the JSON
literal `null` produces the nil interface value, every other document
produces a non-nil value (represented by the document itself). -/
def decodeInterfaceValue : Json → Option Json
  | .null => none
  | j => some j

/-- The request the second-generation `readRequest` /
`decodeRequestFromReader` builds from a decoded envelope: the id is the
decoded interface value (nil both for an absent `id` member and for an
explicit `"id": null`), and `isNotification` is set iff that decoded id
is nil. -/
def requestOfBody (b : RawBody2) : Request :=
  let decodedId := b.idField.bind decodeInterfaceValue
  { id := decodedId
    method := b.method
    params := b.params
    isNotification := decodedId.isNone }

/-- An inbound body for the second-generation codec. -/
inductive HttpBody2 where
  | malformed : HttpBody2
  | wellFormed (b : RawBody2) : HttpBody2

/-- Go `decodeRequestFromReader` (equally the second-generation
`readRequest` from `message.go`): decode the envelope into a
`rawMessage` whose `ID` is an empty interface, build the request,
and reject it when `method` is empty. -/
def decodeRequestFromReader : HttpBody2 → ReadRequestResult
  | .malformed => .parseError
  | .wellFormed b =>
      let req := requestOfBody b
      if b.method = "" then .invalidMessage req else .ok req

/-- The error `Response.Decode` returns: either the response's own
structured `Error` (returned by `Err()`) or a `json.Unmarshal` failure. -/
inductive DecodeError where
  | rpc (e : RpcError) : DecodeError
  | unmarshalFailure : DecodeError

/-- Go `Response.Decode(v)` from `message.go`: if the response carries an
error, return it at once (before the result payload is touched);
otherwise unmarshal the result payload into `v`.  The embedding keeps
`v` explicit: `um` is `json.Unmarshal` for `v`'s type and the returned
value is the final contents of `v` (unchanged whenever the code returns
before or during a failing unmarshal — a failing `json.Unmarshal` of the
documents used here writes nothing).  A `nil` result payload (`none`)
makes `json.Unmarshal` fail with an empty-input error. -/
def responseDecode {A : Type} (r : Response) (um : Json → Option A) (v : A) :
    A × Option DecodeError :=
  match r.error with
  | some e => (v, some (.rpc e))
  | none =>
      match r.result with
      | none => (v, some .unmarshalFailure)
      | some j =>
          match um j with
          | none => (v, some .unmarshalFailure)
          | some w => (w, none)

/-- A runtime type descriptor as `inspectHandler` consults it.
`isCtx` / `isErr` record identity with `context.Context` / `error`
(compared by `reflect.Type` equality in the source); `elemName` and
`elemPkgPath` are the `Name()` and `PkgPath()` of the type obtained
after stripping all pointer indirections, the only attributes
`isExportedOrBuiltinType` reads. -/
structure GoType where
  isCtx : Bool
  isErr : Bool
  elemName : String
  elemPkgPath : String
deriving DecidableEq

/-- Go `go/token.IsExported`: the name starts with an upper-case letter
(the identifiers appearing here are ASCII, where Lean's `Char.isUpper`
agrees with Go's `unicode.IsUpper`). -/
def isExportedName (s : String) : Bool :=
  match s.data with
  | [] => false
  | c :: _ => c.isUpper

/-- Go `isExportedOrBuiltinType` from the server file: strip pointers, then
accept an exported name or an empty package path. -/
def isExportedOrBuiltinType (t : GoType) : Bool :=
  isExportedName t.elemName || t.elemPkgPath = ""

/-- The reflected view of the value passed to `HandleFunc`: either not a
func at all (with its `reflect.Kind` name), or a func with its argument
and return types. -/
inductive HandlerValue where
  | notFunc (kind : String) : HandlerValue
  | ofFunc (args : List GoType) (rets : List GoType) : HandlerValue

/-- The registration errors `inspectHandler` can produce, one per
`fmt.Errorf` site. -/
inductive RegError where
  | notFunc : RegError
  | invalidNumArgs : RegError
  | invalidFirstArg : RegError
  | invalidSecondArg : RegError
  | invalidNumReturns : RegError
  | invalidFirstReturn : RegError
  | invalidSecondReturn : RegError
deriving DecidableEq

/-- The signature data `inspectHandler` reports on success (`numArgs`,
`ptype`, `rtype`), stored in the registry alongside the callable. -/
structure HandlerSig where
  numArgs : Nat
  ptype : Option GoType
  rtype : GoType
deriving DecidableEq

/-- The checks `inspectHandler` performs once the arity is known to be 1
or 2: first argument must be `context.Context`; a second argument, when
present, must be exported or builtin; there must be exactly two returns,
the first exported or builtin and the second `error`. -/
def inspectHandlerChecks (numArgs : Nat) (a0 : GoType) (a1 : Option GoType)
    (rets : List GoType) : Except RegError HandlerSig :=
  if !a0.isCtx then .error .invalidFirstArg
  else if (a1.map (fun t => !isExportedOrBuiltinType t)).getD false then
    .error .invalidSecondArg
  else
    match rets with
    | [r0, r1] =>
        if !isExportedOrBuiltinType r0 then .error .invalidFirstReturn
        else if !r1.isErr then .error .invalidSecondReturn
        else .ok ⟨numArgs, a1, r0⟩
    | _ => .error .invalidNumReturns

/-- Go `inspectHandler` from the server file: reject non-funcs, then any
arity other than 1 or 2, then apply the remaining checks. -/
def inspectHandler : HandlerValue → Except RegError HandlerSig
  | .notFunc _ => .error .notFunc
  | .ofFunc args rets =>
      match args with
      | [a0] => inspectHandlerChecks 1 a0 none rets
      | [a0, a1] => inspectHandlerChecks 2 a0 (some a1) rets
      | _ => .error .invalidNumArgs

/-- Go `s.handler.Load` on the association-list model of the `sync.Map`:
the most recent `Store` for a method wins. -/
def lookupMethod (reg : List (String × HandlerSig)) (m : String) :
    Option HandlerSig :=
  (reg.find? (fun p => p.1 = m)).map (fun p => p.2)

/-- Go `Server.HandleFunc` from the server file: inspect the handler; on
failure return the error without storing anything, otherwise store the
descriptor under the method name. -/
def handleFunc (reg : List (String × HandlerSig)) (method : String)
    (h : HandlerValue) : Except RegError (List (String × HandlerSig)) :=
  match inspectHandler h with
  | .error e => .error e
  | .ok sig => .ok ((method, sig) :: reg)

/-- The calling-shape rules as the claim states them: the registered
value is not a function with one or two arguments, or its first argument
is not the call-context type, or its second argument (if any) is not an
exported-or-builtin type, or it does not return exactly two values, or
the first return is not an exported-or-builtin type, or the second
return is not `error`.  This definition follows the claim's wording, to
be compared with `inspectHandler`, which follows the source. -/
def violatesCallingShape : HandlerValue → Bool
  | .notFunc _ => true
  | .ofFunc args rets =>
      (decide (args.length ≠ 1) && decide (args.length ≠ 2)) ||
      (match args.head? with
       | some a0 => !a0.isCtx
       | none => true) ||
      (match args with
       | [_, a1] => !isExportedOrBuiltinType a1
       | _ => false) ||
      decide (rets.length ≠ 2) ||
      (match rets with
       | [r0, _] => !isExportedOrBuiltinType r0
       | _ => false) ||
      (match rets with
       | [_, r1] => !r1.isErr
       | _ => false)

/-- The condition under which `callMethod` actually invokes the
registered handler with argument list `arg`: a one-argument handler is
invoked with the context alone, a two-argument handler only once the
params payload is present and `json.Unmarshal` into the parameter type
succeeded. -/
def handlerReached {P R : Type} (params : Option Json) (h : HandlerType P R)
    (arg : Option P) : Prop :=
  (h.numArgs = 1 ∧ arg = none) ∨
  (h.numArgs ≠ 1 ∧ ∃ p v, params = some p ∧ h.punmarshal p = some v ∧ arg = some v)

/-- A notification body: a well-formed request without an `id` member. -/
def notifBody : HttpBody :=
  .wellFormed
    { id := none, method := "echo", params := some (.num 5),
      result := none, error := none }

/-- The request `readRequest` derives from `notifBody`. -/
def notifRequest : Request :=
  { id := none, method := "echo", params := some (.num 5),
    isNotification := true }

/-- A registered handler that fails: `func(ctx context.Context, n int)
(int, error) { return 0, errors.New("boom") }`.  The returned error is a
plain `error`, not the structured `Error` type. -/
def boomHandler : HandlerType Int Int :=
  { numArgs := 2
    f := fun _ => (0, some (.plain "boom"))
    punmarshal := goUnmarshalInt
    rmarshal := fun n => some (.num n) }

/-- A registry holding only `boomHandler` under the method name `boom`. -/
def boomRegistry : Registry Int Int :=
  fun m => if m = "boom" then some boomHandler else none

/-- The `reflect.Type` descriptor of `context.Context`. -/
def ctxGoType : GoType := ⟨true, false, "Context", "context"⟩

/-- The `reflect.Type` descriptor of `error`. -/
def errGoType : GoType := ⟨false, true, "error", ""⟩

/-- The `reflect.Type` descriptor of the builtin `int`. -/
def intGoType : GoType := ⟨false, false, "int", ""⟩

/-- The reflected shape of `func(ctx context.Context, n int) (int,
error)`, a valid handler. -/
def validHandlerValue : HandlerValue :=
  .ofFunc [ctxGoType, intGoType] [intGoType, errGoType]

/-- C4: for every input body on which the envelope decode fails — in
particular every body that is not syntactically valid JSON — the
dispatcher produces a Response whose id is JSON `null` and whose error
code is -32700 (Parse error), for any registry. -/
theorem malformedBodyYieldsParseError {P R : Type} (reg : Registry P R) :
    serveHTTP reg .malformed =
      ({ id := some Json.null, result := none,
         error := some { code := -32700, message := "Parse error", data := none } },
       false) := rfl

/-- Witness for `malformedBodyYieldsParseError` at a concrete registry. -/
theorem malformedBodyYieldsParseErrorWitness :
    serveHTTP echoRegistry .malformed =
      ({ id := some Json.null, result := none,
         error := some { code := -32700, message := "Parse error", data := none } },
       false) :=
  malformedBodyYieldsParseError echoRegistry

/-- C7: a well-formed request (non-empty method, id present) whose
method has no registered handler is answered with error code -32601
(Method not found) and the request's own id, and no handler runs. -/
theorem unknownMethodYieldsMethodNotFound {P R : Type} (reg : Registry P R)
    (msg : RawMessage) (j : Json) (hm : msg.method ≠ "")
    (hid : msg.id = some j) (hreg : reg msg.method = none) :
    serveHTTP reg (.wellFormed msg) =
      ({ id := some j, result := none,
         error := some { code := -32601, message := "Method not found", data := none } },
       false) := by
  simp [serveHTTP, readRequest, hm, hreg, errResponse, hid, errMethodNotFound]

/-- Witness for `unknownMethodYieldsMethodNotFound`. -/
theorem unknownMethodYieldsMethodNotFoundWitness :
    serveHTTP (fun _ => none : Registry Int Int)
      (.wellFormed { id := some (.num 1), method := "garbage", params := none,
                     result := none, error := none }) =
      ({ id := some (.num 1), result := none,
         error := some { code := -32601, message := "Method not found", data := none } },
       false) :=
  unknownMethodYieldsMethodNotFound (fun _ => none)
    { id := some (.num 1), method := "garbage", params := none,
      result := none, error := none }
    (.num 1) (by simp) rfl rfl

/-- C5, counterexample: an envelope whose id is a JSON boolean — neither
null, a string nor a number — with an unregistered method name is
answered with -32601 (Method not found), not with -32600 (Invalid
Request) as the claim demands: the id-type validation the claim
describes does not exist (`parseID` is commented out in `readRequest`). -/
theorem invalidIdTypeNotRejected :
    serveHTTP (fun _ => none : Registry Int Int)
      (.wellFormed { id := some (.bool true), method := "sum", params := none,
                     result := none, error := none }) =
      ({ id := some (.bool true), result := none,
         error := some errMethodNotFound }, false)
    ∧ errMethodNotFound.code ≠ -32600 :=
  ⟨rfl, by simp [errMethodNotFound]⟩

/-- C5, amended: only a missing `method` makes the envelope an invalid
request: such an envelope is answered with -32600 (Invalid Request)
carrying the best-effort id (`errResponse` substitutes JSON `null` when
no id could be determined); the id's JSON type is never validated. -/
theorem missingMethodYieldsInvalidRequest {P R : Type} (reg : Registry P R)
    (msg : RawMessage) (hm : msg.method = "") :
    serveHTTP reg (.wellFormed msg) =
      (errResponse msg.id { code := -32600, message := "Invalid Request", data := none },
       false) := by
  simp [serveHTTP, readRequest, hm, errInvalidRequest]

/-- Witness for `missingMethodYieldsInvalidRequest`. -/
theorem missingMethodYieldsInvalidRequestWitness :
    serveHTTP (fun _ => none : Registry Int Int)
      (.wellFormed { id := none, method := "", params := some (.arr []),
                     result := none, error := none }) =
      ({ id := some Json.null, result := none,
         error := some { code := -32600, message := "Invalid Request", data := none } },
       false) :=
  missingMethodYieldsInvalidRequest (fun _ => none)
    { id := none, method := "", params := some (.arr []),
      result := none, error := none } rfl

/-- C1, failing input: the dispatcher does NOT reject a params payload
that decodes to the parameter type's zero value.  For the registered
handler `func(ctx, n int) (int, error)` and the request
`{"jsonrpc":"2.0","id":7,"method":"echo","params":0}` — whose params
decode to `0`, the zero value of `int` — the handler IS invoked (the
flag is `true`) and a success Response is produced, instead of the
-32602 (Invalid params) error the claim requires: the zero-value test
`reflect.DeepEqual(pzero, pvalue.Elem())` compares the two
`reflect.Value` wrappers themselves, which wrap values of the distinct
types `*int` and `int`, so it is `false` for every input (see
`deepEqualZeroCheck`).  The absent-params and failed-decode clauses of
the claim do hold (they are the two guarded returns of
`errServerInvalidParams` in `callMethod`). -/
theorem zeroValueParamsReachHandler :
    serveHTTP echoRegistry
      (.wellFormed { id := some (.num 7), method := "echo",
                     params := some (.num 0), result := none, error := none }) =
      ({ id := some (.num 7), result := some (.num 0), error := none }, true)
    ∧ goUnmarshalInt (.num 0) = some 0 :=
  ⟨rfl, rfl⟩

/-- C2, failing input: a request without an `id` — which `readRequest`
itself classifies as a notification — still produces a full success
Response, which `ServeHTTP` unconditionally hands to `sendMessage`:
every branch of `ServeHTTP` writes a Response back, and the
`isNotification` flag is never consulted.  The handler IS invoked (the
claim's side-effect clause holds), but response bytes are written,
contradicting the claim's "never writes any response bytes". -/
theorem notificationStillGetsResponse :
    readRequest notifBody = .ok notifRequest
    ∧ notifRequest.isNotification = true
    ∧ serveHTTP echoRegistry notifBody =
        ({ id := none, result := some (.num 5), error := none }, true) :=
  ⟨rfl, rfl, rfl⟩

/-- C9: `Response.Decode(v)` on a Response carrying a non-nil error
returns that error at once, leaving `v` unmodified and the result
payload untouched; on a Response with no error it unmarshals the result
payload into `v`. -/
theorem responseDecodeSemantics {A : Type} (r : Response) (um : Json → Option A)
    (v : A) :
    (∀ e, r.error = some e → responseDecode r um v = (v, some (.rpc e))) ∧
    (∀ j w, r.error = none → r.result = some j → um j = some w →
      responseDecode r um v = (w, none)) := by
  refine ⟨fun e he => ?_, fun j w he hr hu => ?_⟩ <;>
    simp [responseDecode, he, *]

/-- Witness for `responseDecodeSemantics`: both branches at concrete
responses. -/
theorem responseDecodeSemanticsWitness :
    responseDecode
      { id := none, result := some (.num 3), error := some errInvalidParams }
      goUnmarshalInt 7 = (7, some (.rpc errInvalidParams))
    ∧ responseDecode
      { id := none, result := some (.num 3), error := none }
      goUnmarshalInt 7 = (3, none) :=
  ⟨(responseDecodeSemantics _ goUnmarshalInt 7).1 errInvalidParams rfl,
   (responseDecodeSemantics _ goUnmarshalInt 7).2 (.num 3) 3 rfl rfl rfl⟩

/-- C10: the second-generation request codec decodes the `id` member
into an empty-interface variable, so a member that is explicitly the
JSON literal `null` decodes to the nil interface value, exactly as an
absent member does; the built request is marked a notification iff that
decoded id is nil, and in particular a request with `"id": null` is a
notification. -/
theorem notificationIffNilInterfaceId :
    (∀ b : RawBody2,
      (requestOfBody b).isNotification = (requestOfBody b).id.isNone) ∧
    (∀ b : RawBody2,
      decodeRequestFromReader (.wellFormed { b with idField := some .null }) =
        decodeRequestFromReader (.wellFormed { b with idField := none })) ∧
    (∀ b : RawBody2,
      (requestOfBody { b with idField := some .null }).isNotification = true) :=
  ⟨fun _ => rfl, fun _ => rfl, fun _ => rfl⟩

/-- C3, counterexample: `Client.call` never compares the decoded reply's
id with the correlation id it allocated.  A client whose counter holds 0
allocates the fresh id 1 for the request, yet a transport reply carrying
id 42 is accepted and the call resolves with that Response. -/
theorem callAcceptsMismatchedReplyId :
    clientCall 0
      (fun _ => some (.wellFormed
        { id := some (.num 42), method := "", params := none,
          result := some (.str "pong"), error := none }))
      some "sum" .null =
      (1, .ok { id := some (.num 42), result := some (.str "pong"), error := none }
        (.str "pong"))
    ∧ some (Json.num 42) ≠ some (nextID 0) :=
  ⟨rfl, by simp [nextID]⟩

/-- C3, amended: when `Client.Call` completes with a server reply, it
allocates the fresh correlation id `counter + 1` for its Request and
resolves with the decoded Response exactly as the transport returned it
— the reply's id is taken as is and never checked against the allocated
id. -/
theorem callResolvesWithDecodedReply {A : Type} (counter : Int)
    (transport : Request → Option HttpBody) (um : Json → Option A)
    (method : String) (params : Json) (msg : RawMessage) (v : A)
    (ht : transport
        { id := some (nextID counter), method := method,
          params := some params, isNotification := false } =
      some (.wellFormed msg))
    (hm : msg.method = "") (he : msg.error = none)
    (hu : um (msg.result.getD .null) = some v) :
    clientCall counter transport um method params =
      (counter + 1,
       .ok { id := msg.id, result := some (msg.result.getD .null), error := none } v) := by
  simp [clientCall, ht, readResponse, hm, he, hu]

/-- Witness for `callResolvesWithDecodedReply`. -/
theorem callResolvesWithDecodedReplyWitness :
    clientCall 0
      (fun _ => some (.wellFormed
        { id := some (.num 1), method := "", params := none,
          result := some (.num 9), error := none }))
      goUnmarshalInt "sum" .null =
      (1, .ok { id := some (.num 1), result := some (.num 9), error := none } 9) :=
  callResolvesWithDecodedReply 0 _ goUnmarshalInt "sum" .null
    { id := some (.num 1), method := "", params := none,
      result := some (.num 9), error := none }
    9 rfl rfl rfl rfl

/-- C6: when the dispatcher reaches the handler and the handler returns
a non-nil error, the Response's error is that value unchanged when it is
the structured `Error` type (code, message and data preserved), and
otherwise an `Error` with code -32000 and the returned error's
description as message. -/
theorem handlerErrorForwarded {P R : Type} (reg : Registry P R)
    (msg : RawMessage) (h : HandlerType P R) (arg : Option P) (r : R)
    (herr : HandlerError) (hm : msg.method ≠ "")
    (hreg : reg msg.method = some h)
    (hreach : handlerReached msg.params h arg)
    (hf : h.f arg = (r, some herr)) :
    serveHTTP reg (.wellFormed msg) =
      (errResponse msg.id
        (match herr with
         | .rpc e => e
         | .plain m => { code := -32000, message := m, data := none }),
       true) := by
  have hcall : callMethod
      { id := msg.id, method := msg.method, params := msg.params,
        isNotification := msg.id.isNone } h =
      ((match herr with
        | .rpc e => CallOutcome.rpcError e
        | .plain m => CallOutcome.rpcError { code := -32000, message := m, data := none }),
       true) := by
    rcases hreach with ⟨h1, harg⟩ | ⟨h1, p, v, hp, hv, harg⟩
    · subst harg
      simp [callMethod, h1, hf, finishCall]
      cases herr <;> simp [finishCall, hf]
    · subst harg
      simp [callMethod, h1, hp, hv, deepEqualZeroCheck]
      cases herr <;> simp [finishCall, hf]
  simp [serveHTTP, readRequest, hm, hreg, hcall]
  cases herr <;> simp

/-- Witness for `handlerErrorForwarded`: the `boom` handler's plain
error is wrapped as code -32000 with its description. -/
theorem handlerErrorForwardedWitness :
    serveHTTP boomRegistry
      (.wellFormed { id := some (.num 3), method := "boom",
                     params := some (.num 1), result := none, error := none }) =
      ({ id := some (.num 3), result := none,
         error := some { code := -32000, message := "boom", data := none } }, true) :=
  handlerErrorForwarded boomRegistry
    { id := some (.num 3), method := "boom", params := some (.num 1),
      result := none, error := none }
    boomHandler (some 1) 0 (.plain "boom") (by simp) rfl
    (Or.inr ⟨by simp [boomHandler], .num 1, 1, rfl, rfl, rfl⟩) rfl

/-- Go `inspectHandler` succeeds exactly on the handlers that satisfy every
calling-shape rule of the claim (shared helper for the registration
theorem). -/
theorem inspectHandler_ok_iff (hv : HandlerValue) :
    (∃ sig, inspectHandler hv = .ok sig) ↔ violatesCallingShape hv = false := by
  match hv with
  | .notFunc k => simp [inspectHandler, violatesCallingShape]
  | .ofFunc args rets =>
    match args with
    | [] => simp [inspectHandler, violatesCallingShape]
    | [a0] =>
      by_cases hc : a0.isCtx
      · match rets with
        | [] =>
          simp [inspectHandler, inspectHandlerChecks, violatesCallingShape, hc]
        | [r0] =>
          simp [inspectHandler, inspectHandlerChecks, violatesCallingShape, hc]
        | [r0, r1] =>
          by_cases he0 : isExportedOrBuiltinType r0
          · by_cases he1 : r1.isErr <;>
              simp [inspectHandler, inspectHandlerChecks, violatesCallingShape,
                hc, he0, he1]
          · simp [inspectHandler, inspectHandlerChecks, violatesCallingShape,
              hc, he0]
        | r0 :: r1 :: r2 :: rest =>
          simp [inspectHandler, inspectHandlerChecks, violatesCallingShape, hc]
      · simp [inspectHandler, inspectHandlerChecks, violatesCallingShape, hc]
    | [a0, a1] =>
      by_cases hc : a0.isCtx
      · by_cases ha1 : isExportedOrBuiltinType a1
        · match rets with
          | [] =>
            simp [inspectHandler, inspectHandlerChecks, violatesCallingShape, hc, ha1]
          | [r0] =>
            simp [inspectHandler, inspectHandlerChecks, violatesCallingShape, hc, ha1]
          | [r0, r1] =>
            by_cases he0 : isExportedOrBuiltinType r0
            · by_cases he1 : r1.isErr <;>
                simp [inspectHandler, inspectHandlerChecks, violatesCallingShape,
                  hc, ha1, he0, he1]
            · simp [inspectHandler, inspectHandlerChecks, violatesCallingShape,
                hc, ha1, he0]
          | r0 :: r1 :: r2 :: rest =>
            simp [inspectHandler, inspectHandlerChecks, violatesCallingShape, hc, ha1]
        · simp [inspectHandler, inspectHandlerChecks, violatesCallingShape, hc, ha1]
      · simp [inspectHandler, inspectHandlerChecks, violatesCallingShape, hc]
    | a0 :: a1 :: a2 :: rest => simp [inspectHandler, violatesCallingShape]

/-- C8: `HandleFunc` returns a registration error and stores no
descriptor exactly when the handler violates one of the calling-shape
rules (`violatesCallingShape`, stated as in the claim); on a valid
handler it succeeds and stores the descriptor, which the registry lookup
then finds.  (The check runs at registration time, before any request is
dispatched.) -/
theorem handleFuncValidation (reg : List (String × HandlerSig)) (m : String)
    (h : HandlerValue) :
    ((∃ e, handleFunc reg m h = .error e) ↔ violatesCallingShape h = true) ∧
    (violatesCallingShape h = false →
      ∃ sig, handleFunc reg m h = .ok ((m, sig) :: reg) ∧
        lookupMethod ((m, sig) :: reg) m = some sig) := by
  cases hb : violatesCallingShape h with
  | false =>
    obtain ⟨sig, hsig⟩ := (inspectHandler_ok_iff h).mpr hb
    refine ⟨⟨fun ⟨e, he⟩ => ?_, fun hcontra => by simp at hcontra⟩,
      fun _ => ⟨sig, by simp [handleFunc, hsig], ?_⟩⟩
    · rw [handleFunc, hsig] at he
      exact Except.noConfusion he
    · simp [lookupMethod, List.find?]
  | true =>
    have hner : ¬ ∃ sig, inspectHandler h = .ok sig := by
      intro hex
      rw [(inspectHandler_ok_iff h).mp hex] at hb
      exact Bool.noConfusion hb
    obtain ⟨e, he⟩ : ∃ e, inspectHandler h = .error e := by
      cases hi : inspectHandler h with
      | error e => exact ⟨e, rfl⟩
      | ok sig => exact absurd ⟨sig, hi⟩ hner
    exact ⟨⟨fun _ => rfl, fun _ => ⟨e, by simp [handleFunc, he]⟩⟩,
      fun hcontra => Bool.noConfusion hcontra⟩

/-- Witness for `handleFuncValidation`: a valid two-argument handler is
accepted and stored. -/
theorem handleFuncValidationWitness :
    ∃ sig, handleFunc [] "sum" validHandlerValue = .ok [("sum", sig)] ∧
      lookupMethod [("sum", sig)] "sum" = some sig :=
  (handleFuncValidation [] "sum" validHandlerValue).2 rfl

end JsonRpc
